import Mathlib

/-!
Verification of the Kitupé ownership-resolution repository.

The development shallowly embeds the two source files:

* `ton_script.py` — the recursive, visited-set-guarded graph walk
  `find_owners` over a Wikidata-style ownership graph.  The external
  SPARQL provider is modelled as a finite association list `Graph`
  mapping an entity id to the list of owner records the provider
  returns for it; `get_label` is modelled as an arbitrary labelling
  function.  Python's shared mutable `visited` set and `results` list
  are threaded explicitly through the recursion.  The unbounded Python
  recursion is rendered with a fuel parameter, and its termination is
  the theorem that the result stabilises once the fuel reaches the
  number of entity ids occurring in the (finite) graph.

* `app.py` — the pipeline `find_owner`, the scorer `score_result`, the
  stable descending sort performed by Python's `list.sort(key=...,
  reverse=True)`, and the `/search` route.  The network-backed
  providers (Tavily extraction, Wikidata verification, Wikipedia
  verification, image lookup) are modelled as an environment record
  holding the value each provider call returns for the query, since
  the claims under examination concern how `find_owner` assembles,
  ranks and returns those provider results.
-/

/-- One SPARQL binding row returned by the ownership query of
`ton_script.find_owners`: the owner's entity id (already stripped from
the URI), its label, and the `P31` type string (empty when absent). -/
structure Owner where
  qid : String
  label : String
  otype : String
deriving DecidableEq

/-- The finite ownership graph presented by the SPARQL provider: each
entry maps an entity id to the owner rows the provider returns for it;
ids absent from the table have no owners. -/
abbrev Graph := List (String × List Owner)

/-- One element of the `results` list built by `find_owners`:
`chemin` is the label path, `ctype` is `"organisation"`, `"humain"` (or
`"inconnu"` in `find_final_owners`), `wikipedia` the generated link. -/
structure Candidate where
  chemin : List String
  ctype : String
  wikipedia : String
deriving DecidableEq

/-- The Wikipedia link string built by `find_owners` for an entity id. -/
def wikiLink (qid : String) : String :=
  "https://fr.wikipedia.org/wiki/Special:GoToLinkedPage/frwiki/" ++ qid

/-- Python's substring test `needle in hay` on strings. -/
def pyIn (needle hay : String) : Bool :=
  decide (needle.toList <:+: hay.toList)

/-- The owner rows the provider returns for `qid` (`run_sparql` result);
an id absent from the finite table yields no rows. -/
def edgesOf (g : Graph) (qid : String) : List Owner :=
  match List.find? (fun pr => pr.1 == qid) g with
  | some pr => pr.2
  | none => []

/-- The body of the `for o in owners` loop of `find_owners`, acting on
the shared state `(visited, results)`: a `Q5` (human) owner appends a
`humain` candidate; any other owner is walked recursively with `fuel`
remaining steps. -/
def findOwnersAux (g : Graph) : Nat → String → List String → List String →
    List Candidate → List String × List Candidate
  | 0, _, visited, _, results => (visited, results)
  | fuel + 1, qid, visited, path, results =>
    if qid ∈ visited then (visited, results)
    else if (edgesOf g qid).isEmpty then
      (qid :: visited, results ++ [Candidate.mk path "organisation" (wikiLink qid)])
    else
      (edgesOf g qid).foldl
        (fun st o =>
          if pyIn "Q5" o.otype = true then
            (st.1, st.2 ++ [Candidate.mk (path ++ [o.label]) "humain" (wikiLink o.qid)])
          else
            findOwnersAux g fuel o.qid st.1 (path ++ [o.label]) st.2)
        (qid :: visited, results)

/-- The loop step of `findOwnersAux`, named so lemmas can speak about
the `foldl`. -/
def stepFn (g : Graph) (fuel : Nat) (path : List String)
    (st : List String × List Candidate) (o : Owner) : List String × List Candidate :=
  if pyIn "Q5" o.otype = true then
    (st.1, st.2 ++ [Candidate.mk (path ++ [o.label]) "humain" (wikiLink o.qid)])
  else
    findOwnersAux g fuel o.qid st.1 (path ++ [o.label]) st.2

theorem findOwnersAux_succ (g : Graph) (fuel : Nat) (qid : String)
    (visited path : List String) (results : List Candidate) :
    findOwnersAux g (fuel + 1) qid visited path results =
      if qid ∈ visited then (visited, results)
      else if (edgesOf g qid).isEmpty then
        (qid :: visited, results ++ [Candidate.mk path "organisation" (wikiLink qid)])
      else
        (edgesOf g qid).foldl (stepFn g fuel path) (qid :: visited, results) := rfl

/-- Every entity id mentioned in the graph table, keys and owners alike:
any id the walk can newly visit while recursing lies in this list. -/
def ownerQids (g : Graph) : List String :=
  g.map Prod.fst ++ (g.map (fun pr => pr.2.map Owner.qid)).flatten

/-- Number of graph ids not yet visited: the decreasing measure of the
walk. -/
def mRem (g : Graph) (visited : List String) : Nat :=
  ((ownerQids g).filter (fun q => decide (q ∉ visited))).length

/-- Fuel sufficient to run `find_owners` to completion on the finite
graph `g` from any starting entity. -/
def fuelOf (g : Graph) : Nat := (ownerQids g).length + 1

/-- The walk of `ton_script.find_owners qid` with no explicit
`visited`/`path`/`results` arguments: path starts at the entity's
label, and the caller reads off the accumulated `results`. -/
def find_owners (g : Graph) (getLabel : String → String) (qid : String) :
    List Candidate :=
  (findOwnersAux g (fuelOf g) qid [] [getLabel qid] []).2

/-- The cyclic two-entity graph of the spec scenario:
`X owned_by Y` and `Y owned_by X`, neither of them human. -/
def gCycle : Graph :=
  [("X", [Owner.mk "Y" "Y" ""]), ("Y", [Owner.mk "X" "X" ""])]

/-- A 12-entity ownership chain `A0 → A1 → ... → A11`, far deeper than
the 8-10 hop bound the spec postulates. -/
def gChain : Graph :=
  [("A0", [Owner.mk "A1" "A1" ""]), ("A1", [Owner.mk "A2" "A2" ""]),
   ("A2", [Owner.mk "A3" "A3" ""]), ("A3", [Owner.mk "A4" "A4" ""]),
   ("A4", [Owner.mk "A5" "A5" ""]), ("A5", [Owner.mk "A6" "A6" ""]),
   ("A6", [Owner.mk "A7" "A7" ""]), ("A7", [Owner.mk "A8" "A8" ""]),
   ("A8", [Owner.mk "A9" "A9" ""]), ("A9", [Owner.mk "A10" "A10" ""]),
   ("A10", [Owner.mk "A11" "A11" ""])]

theorem filter_sub_length {α : Type} (l : List α) (p q : α → Bool)
    (h : ∀ a, p a = true → q a = true) :
    (l.filter p).length ≤ (l.filter q).length := by
  induction l with
  | nil => simp
  | cons a t ih =>
    cases hp : p a with
    | false =>
      cases hq : q a with
      | false => simpa [List.filter_cons, hp, hq] using ih
      | true =>
        simp only [List.filter_cons, hp, hq, if_pos, if_neg, Bool.false_eq_true,
          ite_true, ite_false, List.length_cons]
        exact Nat.le_succ_of_le ih
    | true =>
      have hq := h a hp
      simp only [List.filter_cons, hp, hq, ite_true, List.length_cons]
      exact Nat.succ_le_succ ih

theorem filter_lt_length {α : Type} (l : List α) (p q : α → Bool)
    (hpq : ∀ a, p a = true → q a = true) (a₀ : α) (hmem : a₀ ∈ l)
    (hq : q a₀ = true) (hp : p a₀ = false) :
    (l.filter p).length < (l.filter q).length := by
  induction l with
  | nil => cases hmem
  | cons a t ih =>
    rcases List.mem_cons.mp hmem with rfl | hmem'
    · simp only [List.filter_cons, hp, hq, Bool.false_eq_true, ite_false,
        ite_true, List.length_cons]
      exact Nat.lt_succ_of_le (filter_sub_length t p q hpq)
    · cases hp' : p a with
      | false =>
        cases hq' : q a with
        | false => simpa [List.filter_cons, hp', hq'] using ih hmem'
        | true =>
          simp only [List.filter_cons, hp', hq', Bool.false_eq_true, ite_false,
            ite_true, List.length_cons]
          exact Nat.lt_succ_of_lt (ih hmem')
      | true =>
        have hq' := hpq a hp'
        simp only [List.filter_cons, hp', hq', ite_true, List.length_cons]
        exact Nat.succ_lt_succ (ih hmem')

theorem mRem_mono (g : Graph) {V W : List String} (h : V ⊆ W) :
    mRem g W ≤ mRem g V := by
  unfold mRem
  apply filter_sub_length
  intro a ha
  simp only [decide_eq_true_eq] at ha ⊢
  exact fun hmem => ha (h hmem)

theorem mem_ownerQids_of_edges (g : Graph) (qid : String)
    (h : (edgesOf g qid).isEmpty = false) : qid ∈ ownerQids g := by
  unfold edgesOf at h
  cases hf : List.find? (fun pr => pr.1 == qid) g with
  | none => rw [hf] at h; simp at h
  | some pr =>
    have hm : pr ∈ g := List.mem_of_find?_eq_some hf
    have hb := List.find?_some hf
    have heq : pr.1 = qid := by simpa using hb
    unfold ownerQids
    exact List.mem_append_left _ (heq ▸ List.mem_map_of_mem Prod.fst hm)

theorem mRem_cons_lt (g : Graph) (qid : String) (V : List String)
    (hq : qid ∈ ownerQids g) (hv : qid ∉ V) :
    mRem g (qid :: V) < mRem g V := by
  unfold mRem
  apply filter_lt_length (ownerQids g) _ _ ?_ qid hq ?_ ?_
  · intro a ha
    simp only [decide_eq_true_eq, List.mem_cons, not_or] at ha ⊢
    exact ha.2
  · simpa using hv
  · simp

theorem foldl_fst_subset
    (f : List String × List Candidate → Owner → List String × List Candidate)
    (hf : ∀ st o, st.1 ⊆ (f st o).1) :
    ∀ (l : List Owner) (st : List String × List Candidate),
      st.1 ⊆ (l.foldl f st).1 := by
  intro l
  induction l with
  | nil => intro st a ha; exact ha
  | cons o t ih => intro st a ha; exact ih (f st o) (hf st o ha)

theorem aux_visited_sub (g : Graph) :
    ∀ (fuel : Nat) (qid : String) (V p : List String) (r : List Candidate),
      V ⊆ (findOwnersAux g fuel qid V p r).1 := by
  intro fuel
  induction fuel with
  | zero => intro qid V p r a ha; exact ha
  | succ n ih =>
    intro qid V p r
    rw [findOwnersAux_succ]
    by_cases hv : qid ∈ V
    · rw [if_pos hv]; exact fun a ha => ha
    · rw [if_neg hv]
      cases hE : (edgesOf g qid).isEmpty with
      | true =>
        rw [if_pos rfl]
        exact List.subset_cons_self qid V
      | false =>
        rw [if_neg (show ¬false = true by simp)]
        have hstep : ∀ st o, st.1 ⊆ (stepFn g n p st o).1 := by
          intro st o
          unfold stepFn
          split
          · exact fun a ha => ha
          · exact ih o.qid st.1 (p ++ [o.label]) st.2
        intro a ha
        exact foldl_fst_subset (stepFn g n p) hstep (edgesOf g qid)
          (qid :: V, r) (List.mem_cons_of_mem qid ha)

theorem foldl_congr_step (g : Graph) (n : Nat)
    (Hrec : ∀ qid V p r, mRem g V < n →
      findOwnersAux g n qid V p r = findOwnersAux g (n + 1) qid V p r)
    (p : List String) :
    ∀ (l : List Owner) (st : List String × List Candidate), mRem g st.1 < n →
      l.foldl (stepFn g n p) st = l.foldl (stepFn g (n + 1) p) st := by
  intro l
  induction l with
  | nil => intro st _; rfl
  | cons o t iht =>
    intro st h
    have hs : stepFn g n p st o = stepFn g (n + 1) p st o := by
      unfold stepFn
      split
      · rfl
      · exact Hrec o.qid st.1 (p ++ [o.label]) st.2 h
    have hsub : st.1 ⊆ (stepFn g n p st o).1 := by
      unfold stepFn
      split
      · exact fun a ha => ha
      · exact aux_visited_sub g n o.qid st.1 (p ++ [o.label]) st.2
    have h2 : mRem g (stepFn g n p st o).1 < n :=
      Nat.lt_of_le_of_lt (mRem_mono g hsub) h
    calc (o :: t).foldl (stepFn g n p) st
        = t.foldl (stepFn g n p) (stepFn g n p st o) := List.foldl_cons ..
      _ = t.foldl (stepFn g (n + 1) p) (stepFn g n p st o) := iht _ h2
      _ = t.foldl (stepFn g (n + 1) p) (stepFn g (n + 1) p st o) := by rw [hs]

theorem aux_fuel_succ (g : Graph) :
    ∀ (n : Nat) (qid : String) (V p : List String) (r : List Candidate),
      mRem g V < n →
      findOwnersAux g n qid V p r = findOwnersAux g (n + 1) qid V p r := by
  intro n
  induction n with
  | zero => intro _ _ _ _ h; exact absurd h (Nat.not_lt_zero _)
  | succ n ih =>
    intro qid V p r h
    rw [findOwnersAux_succ, findOwnersAux_succ]
    by_cases hv : qid ∈ V
    · rw [if_pos hv, if_pos hv]
    · rw [if_neg hv, if_neg hv]
      cases hE : (edgesOf g qid).isEmpty with
      | true => rw [if_pos rfl, if_pos rfl]
      | false =>
        rw [if_neg (show ¬false = true by simp),
          if_neg (show ¬false = true by simp)]
        have hqid : qid ∈ ownerQids g := mem_ownerQids_of_edges g qid hE
        have hlt : mRem g (qid :: V) < n := by
          have := mRem_cons_lt g qid V hqid hv
          omega
        exact foldl_congr_step g n ih p (edgesOf g qid) (qid :: V, r) hlt

theorem mRem_le_card (g : Graph) (V : List String) :
    mRem g V ≤ (ownerQids g).length :=
  List.length_filter_le _ _

theorem aux_fuel_stable (g : Graph) (k : Nat) (qid : String)
    (V p : List String) (r : List Candidate) :
    findOwnersAux g (fuelOf g + k) qid V p r =
      findOwnersAux g (fuelOf g) qid V p r := by
  induction k with
  | zero => rfl
  | succ k ih =>
    have h : mRem g V < fuelOf g + k := by
      have h1 := mRem_le_card g V
      unfold fuelOf
      omega
    have h2 := aux_fuel_succ g (fuelOf g + k) qid V p r h
    rw [show fuelOf g + (k + 1) = fuelOf g + k + 1 from rfl, ← h2, ih]

/-- A candidate dictionary as assembled in `app.find_owner`: the union
of the keys of the primary Tavily dict and of the Wikidata/Wikipedia
verification dicts, with `none`/`false` standing for an absent key
(Python's `dict.get` returns the falsy `None` there). -/
structure RDict where
  path : List String
  is_human : Bool
  ownership_type : Option String
  confidence : Option String
  source : String
  verified : Bool
  note : Option String
  qid : Option String
deriving DecidableEq

/-- The score assigned by `app.score_result`: verification dominates,
then confidence, then the relation-type class; the contributions are
summed. -/
def score_result (r : RDict) : Nat :=
  (if r.verified = true then 100 else 0) +
    ((if r.confidence = some "high" then 50
      else if r.confidence = some "medium" then 25
      else 0) +
      (if r.ownership_type.getD "" = "parent_company" ∨
          r.ownership_type.getD "" = "owned_by" ∨
          r.ownership_type.getD "" = "subsidiary" then 30
       else if r.ownership_type.getD "" = "public" then 20
       else if r.ownership_type.getD "" = "owns" ∨
          r.ownership_type.getD "" = "private" then 15
       else 0))

/-- Stable insertion used to model Python's stable
`list.sort(key=score_result, reverse=True)`: an element moves past an
earlier one only when the earlier one scores strictly higher, so
equal-score elements keep their input order. -/
def insertDesc (x : RDict) : List RDict → List RDict
  | [] => [x]
  | y :: ys =>
    if score_result x < score_result y then y :: insertDesc x ys
    else x :: y :: ys

/-- The stable descending sort performed by
`all_candidates.sort(key=score_result, reverse=True)`. -/
def sortDesc : List RDict → List RDict
  | [] => []
  | x :: xs => insertDesc x (sortDesc xs)

theorem insertDesc_perm (x : RDict) (l : List RDict) :
    (insertDesc x l).Perm (x :: l) := by
  induction l with
  | nil => exact List.Perm.refl _
  | cons y ys ih =>
    unfold insertDesc
    split
    · exact (ih.cons y).trans (List.Perm.swap x y ys)
    · exact List.Perm.refl _

theorem sortDesc_perm (l : List RDict) : (sortDesc l).Perm l := by
  induction l with
  | nil => exact List.Perm.refl _
  | cons x xs ih => exact (insertDesc_perm x (sortDesc xs)).trans (ih.cons x)

theorem insertDesc_pairwise (x : RDict) (l : List RDict)
    (h : l.Pairwise (fun a b => score_result b ≤ score_result a)) :
    (insertDesc x l).Pairwise (fun a b => score_result b ≤ score_result a) := by
  induction l with
  | nil => simp [insertDesc]
  | cons y ys ih =>
    rw [List.pairwise_cons] at h
    unfold insertDesc
    split
    case isTrue hlt =>
      rw [List.pairwise_cons]
      refine ⟨?_, ih h.2⟩
      intro z hz
      rcases List.mem_cons.mp ((insertDesc_perm x ys).subset hz) with rfl | hz'
      · exact Nat.le_of_lt hlt
      · exact h.1 z hz'
    case isFalse hge =>
      rw [List.pairwise_cons]
      refine ⟨?_, List.pairwise_cons.mpr h⟩
      intro z hz
      rcases List.mem_cons.mp hz with rfl | hz'
      · exact Nat.le_of_not_lt hge
      · exact Nat.le_trans (h.1 z hz') (Nat.le_of_not_lt hge)

theorem sortDesc_pairwise (l : List RDict) :
    (sortDesc l).Pairwise (fun a b => score_result b ≤ score_result a) := by
  induction l with
  | nil => simp [sortDesc]
  | cons x xs ih => exact insertDesc_pairwise x (sortDesc xs) ih

/-- Python truthiness of an optional string value: `None` and the empty
string are falsy. -/
def pyTruthy : Option String → Bool
  | some s => decide (s ≠ "")
  | none => false

/-- Python's `a or b` on optional strings. -/
def pyOr (a b : Option String) : Option String :=
  if pyTruthy a = true then a else b

/-- Output of `extract_owner_from_tavily`: the extracted owner name (if
any), the matched relation type, its confidence tag and the textual
reason, as built by the pattern-matching extractor. -/
structure OwnerInfo where
  owner : Option String
  ownership_type : Option String
  confidence : Option String
  reason : Option String
deriving DecidableEq

/-- The logo/image pair returned by `get_wikidata_images`. -/
structure WdImages where
  logo : Option String
  image : Option String
deriving DecidableEq

/-- The `images` sub-dictionary of the `find_owner` result. -/
structure Images where
  company_logo : Option String
  owner_photo : Option String
deriving DecidableEq

/-- Responses of the external providers for one fixed query, as
consumed by `find_owner`: `tavily` is `none` when `search_tavily`
failed, and otherwise carries what `extract_owner_from_tavily` produced
from its response; `wikidataVerify`/`wikipediaVerify` are the dicts
returned by `verify_with_wikidata`/`verify_with_wikipedia` (or `none`
on failure); `companyQid` and `ownerQidOf` model
`search_wikidata_entity`, and `imagesOf` models `get_wikidata_images`. -/
structure Env where
  tavily : Option OwnerInfo
  wikidataVerify : Option RDict
  wikipediaVerify : Option RDict
  companyQid : Option String
  imagesOf : String → WdImages
  ownerQidOf : String → Option String

/-- The `results` dictionary returned by `find_owner`, with the fields
it initialises and fills. -/
structure FindOwnerResult where
  query : String
  primary_result : Option RDict
  verification : List RDict
  best_result : Option RDict
  images : Images
  ownership_chain : List String
deriving DecidableEq

/-- The dictionary `find_owner` returns before any provider has
contributed (also its early-exit value when Tavily fails). -/
def emptyResults (query : String) : FindOwnerResult :=
  FindOwnerResult.mk query none [] none (Images.mk none none) []

/-- The `primary_result` dict that `find_owner` builds from the Tavily
extraction: a two-label path with `is_human` hardwired to `False` when
an owner was extracted, or a single-label `public` dict when the query
was recognised as publicly traded. -/
def primaryOf (query : String) (info : OwnerInfo) : Option RDict :=
  if pyTruthy info.owner = true then
    some (RDict.mk [query, info.owner.getD ""] false info.ownership_type
      info.confidence "Tavily Search" false none none)
  else if info.ownership_type = some "public" then
    some (RDict.mk [query] false (some "public") (some "high")
      "Tavily Search" false info.reason none)
  else none

/-- The `company_logo` image slot: filled only when the company's QID
was found. -/
def companyLogoOf (env : Env) : Option String :=
  match env.companyQid with
  | some qid => (env.imagesOf qid).logo
  | none => none

/-- The `owner_photo` image slot: filled only when the Wikidata
verification succeeded, an owner was extracted, and its QID resolves. -/
def ownerPhotoOf (env : Env) (info : OwnerInfo) : Option String :=
  match env.wikidataVerify with
  | none => none
  | some _ =>
    if pyTruthy info.owner = true then
      match env.ownerQidOf (info.owner.getD "") with
      | some oq => pyOr (env.imagesOf oq).image (env.imagesOf oq).logo
      | none => none
    else none

/-- The `all_candidates` list assembled by `find_owner` before sorting:
the primary result (when present) followed by the verification dicts in
provider order. -/
def allCandidatesOf (env : Env) (query : String) (info : OwnerInfo) : List RDict :=
  (primaryOf query info).toList ++
    (env.wikidataVerify.toList ++ env.wikipediaVerify.toList)

/-- The `ownership_chain` field: the best result's path when it has
more than one label. -/
def chainOf (best : Option RDict) : List String :=
  match best with
  | some b => if 1 < b.path.length then b.path else []
  | none => []

/-- The pipeline `app.find_owner`: early-exits empty when Tavily fails;
otherwise assembles the primary result, the verification list, the
images, the stably sorted candidates, their head as `best_result`, and
the ownership chain. -/
def find_owner (env : Env) (query : String) : FindOwnerResult :=
  match env.tavily with
  | none => emptyResults query
  | some info =>
    FindOwnerResult.mk query (primaryOf query info)
      (env.wikidataVerify.toList ++ env.wikipediaVerify.toList)
      ((sortDesc (allCandidatesOf env query info)).head?)
      (Images.mk (companyLogoOf env) (ownerPhotoOf env info))
      (chainOf ((sortDesc (allCandidatesOf env query info)).head?))

/-- Characters stripped by Python's `str.strip()` (the ASCII whitespace
class; the spec's "blank" inputs). -/
def pySpace (c : Char) : Bool :=
  c == ' ' || c == '\t' || c == '\n' || c == '\r' || c == '\x0b' || c == '\x0c'

/-- Python's `str.strip()`. -/
def pyStrip (s : String) : String :=
  String.mk (((s.toList.dropWhile pySpace).reverse.dropWhile pySpace).reverse)

/-- Responses of the `/search` route: a 400 client error, a 500
configuration error, or a JSON-serialised `find_owner` result. -/
inductive SearchResponse where
  | clientError (msg : String) (code : Nat)
  | serverError (msg : String) (code : Nat)
  | ok (r : FindOwnerResult)
deriving DecidableEq

/-- The `/search` route handler: strips the query, rejects blank input
with a 400 before any lookup, rejects a missing API key with a 500, and
otherwise runs the pipeline. -/
def search (apiKeySet : Bool) (env : Env) (rawQuery : String) : SearchResponse :=
  if pyStrip rawQuery = "" then SearchResponse.clientError "Empty query" 400
  else if apiKeySet = false then
    SearchResponse.serverError
      "API not configured. Please set TAVILY_API_KEY environment variable." 500
  else SearchResponse.ok (find_owner env (pyStrip rawQuery))

/-- A verified, organisation-terminated `owned_by` candidate as the
Wikidata provider emits it. -/
def cOrg : RDict :=
  RDict.mk ["A", "B"] false (some "owned_by") (some "high") "Wikidata"
    true none none

/-- The same candidate terminated at a human: equal to `cOrg` in every
field except `is_human`. -/
def cHum : RDict :=
  RDict.mk ["A", "B"] true (some "owned_by") (some "high") "Wikidata"
    true none none

/-- An unverified, low-confidence `brand_of` candidate. -/
def rBrand : RDict :=
  RDict.mk ["A", "B"] false (some "brand_of") (some "low") "Tavily Search"
    false none none

/-- An unverified, low-confidence `public` candidate. -/
def rPublic : RDict :=
  RDict.mk ["A", "B"] false (some "public") (some "low") "Tavily Search"
    false none none

/-- An unverified, medium-confidence `parent_company` candidate. -/
def rMedParent : RDict :=
  RDict.mk ["A", "B"] false (some "parent_company") (some "medium") "Wikidata"
    false none none

/-- An unverified, high-confidence candidate of unknown relation type. -/
def rHighUnknown : RDict :=
  RDict.mk ["A", "B"] false (some "unknown") (some "high") "Tavily Search"
    false none none

/-- A Tavily extraction that found the person "Jane Doe" as owner. -/
def infoJane : OwnerInfo :=
  OwnerInfo.mk (some "Jane Doe") (some "owned") (some "high") none

/-- The primary result `find_owner` builds from `infoJane`. -/
def primJane : RDict :=
  RDict.mk ["Acme", "Jane Doe"] false (some "owned") (some "high")
    "Tavily Search" false none none

/-- The Wikidata verification dict for the chain Acme → HoldCo. -/
def vDup : RDict :=
  RDict.mk ["Acme", "HoldCo"] false (some "parent_company") none "Wikidata"
    true none (some "Q42")

/-- The Wikipedia verification dict for the same chain Acme → HoldCo:
identical `path` to `vDup`, different provider. -/
def wDup : RDict :=
  RDict.mk ["Acme", "HoldCo"] false (some "subsidiary") none "Wikipedia"
    true none none

/-- An image provider that finds nothing. -/
def noImages : WdImages := WdImages.mk none none

/-- Environment in which every provider succeeded: Tavily extracted
Jane Doe, and Wikidata and Wikipedia both verified the same chain. -/
def envDup : Env :=
  Env.mk (some infoJane) (some vDup) (some wDup) none (fun _ => noImages)
    (fun _ => none)

/-- Environment in which the Tavily call failed but the Wikidata
verification succeeds. -/
def envFailT : Env :=
  Env.mk none (some vDup) none none (fun _ => noImages) (fun _ => none)

/-- Environment in which every provider fails. -/
def envDefault : Env :=
  Env.mk none none none none (fun _ => noImages) (fun _ => none)

/-- C1, counterexample: on the cyclic graph `X owned_by Y`,
`Y owned_by X`, the traversal starting at `X` does NOT return one
candidate labelled `["X", "Y"]` — revisiting `X` silently drops the
branch and `find_owners` returns the empty list. -/
theorem findOwners_cycle_claim_false :
    find_owners gCycle (fun q => q) "X" = [] ∧
    ¬(find_owners gCycle (fun q => q) "X").length = 1 ∧
    ¬∃ c ∈ find_owners gCycle (fun q => q) "X",
      c.chemin = ["X", "Y"] ∧ c.ctype = "organisation" := by decide

/-- C1, amended: for any finite graph and starting entity the walker
terminates (its fuel-indexed unfolding stabilises at `fuelOf`) and
returns a finite — but possibly empty — candidate list; on the
two-entity cycle starting at `X` it returns no candidates at all,
because the revisit check returns without emitting anything. -/
theorem findOwners_cycle_empty_and_stable :
    find_owners gCycle (fun q => q) "X" = [] ∧
    ∀ k : Nat, findOwnersAux gCycle (fuelOf gCycle + k) "X" [] ["X"] [] =
      findOwnersAux gCycle (fuelOf gCycle) "X" [] ["X"] [] :=
  ⟨by decide, fun k => aux_fuel_stable gCycle k "X" [] ["X"] []⟩

/-- C5: on every finite graph, from every starting entity, the
recursive walk terminates: once the fuel reaches `fuelOf g` (one more
than the number of entity ids in the graph) the computation is
insensitive to any extra fuel, so the unbounded Python recursion
reaches a fixed point; `find_owners` is that stable value. -/
theorem findOwnersAux_terminates (g : Graph) (getLabel : String → String)
    (qid : String) (k : Nat) :
    findOwnersAux g (fuelOf g + k) qid [] [getLabel qid] [] =
      findOwnersAux g (fuelOf g) qid [] [getLabel qid] [] ∧
    find_owners g getLabel qid =
      (findOwnersAux g (fuelOf g + k) qid [] [getLabel qid] []).2 :=
  ⟨aux_fuel_stable g k qid [] [getLabel qid] [],
    congrArg Prod.snd (aux_fuel_stable g k qid [] [getLabel qid] []).symm⟩

/-- C5 witness: the stability theorem instantiated on the cyclic
two-entity graph with three units of surplus fuel. -/
theorem findOwnersAux_terminates_witness :
    (findOwnersAux gCycle (fuelOf gCycle + 3) "X" [] [(fun (q : String) => q) "X"] [] =
      findOwnersAux gCycle (fuelOf gCycle) "X" [] [(fun (q : String) => q) "X"] []) ∧
    find_owners gCycle (fun q => q) "X" =
      (findOwnersAux gCycle (fuelOf gCycle + 3) "X" [] [(fun (q : String) => q) "X"] []).2 :=
  findOwnersAux_terminates gCycle (fun q => q) "X" 3

/-- C6, counterexample: the walk enforces no depth bound — on the
12-entity chain it returns a single candidate whose path has 12 labels
(beyond the claimed 8-10 hop bound) and no `depth_exceeded` note
appears in any field of the emitted candidate. -/
theorem depth_bound_claim_false :
    (find_owners gChain (fun q => q) "A0").length = 1 ∧
    ∃ c ∈ find_owners gChain (fun q => q) "A0",
      10 < c.chemin.length ∧ pyIn "depth_exceeded" c.wikipedia = false ∧
      pyIn "depth_exceeded" c.ctype = false := by decide

/-- C6, amended: `find_owners` has no depth bound at all — the visited
set is its only termination device; the 12-hop chain is walked to its
end and yields exactly one `organisation` candidate carrying all 12
labels, with no depth-related provenance note. -/
theorem chain12_full_walk :
    find_owners gChain (fun q => q) "A0" =
      [Candidate.mk ["A0", "A1", "A2", "A3", "A4", "A5", "A6", "A7", "A8",
        "A9", "A10", "A11"] "organisation" (wikiLink "A11")] := by decide

/-- Helper replacing only the `is_human` field of a candidate dict. -/
def setHuman (r : RDict) (b : Bool) : RDict :=
  RDict.mk r.path b r.ownership_type r.confidence r.source r.verified
    r.note r.qid

/-- C2, counterexample: the claimed relation-type order and tie-break
order are false on the code — a `brand_of` candidate scores 0 and is
ranked BELOW an otherwise identical `public` candidate (the claim puts
`brand_of` above `public`), and an unverified medium-confidence
`parent_company` candidate outscores an unverified high-confidence
unknown-relation candidate (the claim makes confidence dominate
relation type). -/
theorem score_result_order_claim_false :
    score_result rBrand < score_result rPublic ∧
    sortDesc [rBrand, rPublic] = [rPublic, rBrand] ∧
    score_result rHighUnknown < score_result rMedParent := by decide

/-- C2, amended: ranking is by the descending total of independent
weights — verified +100; confidence high +50 / medium +25; relation
type `parent_company`/`owned_by`/`subsidiary` +30, `public` +20,
`owns`/`private` +15, everything else (including `brand_of`, `founder`,
`parent`, `owned`) 0 — so a verified candidate always outscores an
unverified one, the sorted output is a permutation of the input ordered
by weakly decreasing score, and its head is `best_result`. -/
theorem sortDesc_ranking_amended (l : List RDict) (r s : RDict)
    (h1 : r.verified = true) (h2 : s.verified = false) :
    (sortDesc l).Perm l ∧
    (sortDesc l).Pairwise (fun a b => score_result b ≤ score_result a) ∧
    score_result s < score_result r := by
  refine ⟨sortDesc_perm l, sortDesc_pairwise l, ?_⟩
  have hr : 100 ≤ score_result r := by
    unfold score_result
    rw [h1, if_pos rfl]
    split_ifs <;> omega
  have hs : score_result s ≤ 80 := by
    unfold score_result
    rw [h2, if_neg (show ¬false = true by simp)]
    split_ifs <;> omega
  omega

/-- C2 witness: the amended ranking theorem instantiated on a singleton
list, the verified candidate `cOrg` and the unverified `rBrand`. -/
theorem sortDesc_ranking_amended_witness :
    (sortDesc [cOrg]).Perm [cOrg] ∧
    (sortDesc [cOrg]).Pairwise (fun a b => score_result b ≤ score_result a) ∧
    score_result rBrand < score_result cOrg :=
  sortDesc_ranking_amended [cOrg] cOrg rBrand rfl rfl

/-- C3, counterexample: two candidates equal in `verified`,
`confidence`, `ownership_type` and `path`, differing only in
`is_human`, are NOT reordered in favour of the human one — presented
organisation-first, the organisation-terminated candidate stays first
after sorting. -/
theorem human_preference_claim_false :
    cHum.is_human = true ∧ cOrg.is_human = false ∧
    cOrg.verified = cHum.verified ∧ cOrg.confidence = cHum.confidence ∧
    cOrg.ownership_type = cHum.ownership_type ∧ cOrg.path = cHum.path ∧
    (sortDesc [cOrg, cHum]).head? = some cOrg ∧ cOrg ≠ cHum := by decide

/-- C3, amended: the scorer ignores `is_human` entirely — flipping the
field never changes a candidate's score — and two equally scored
candidates keep their input order under the stable sort, so the
human-terminated candidate ranks first exactly when it arrived first. -/
theorem score_ignores_is_human (r : RDict) (b : Bool) (c d : RDict)
    (h : score_result c = score_result d) :
    score_result (setHuman r b) = score_result r ∧
    sortDesc [c, d] = [c, d] := by
  refine ⟨rfl, ?_⟩
  simp [sortDesc, insertDesc, h, lt_self_iff_false]

/-- C3 witness: the human-terminated `cHum` and organisation-terminated
`cOrg` score equally and keep their input order. -/
theorem score_ignores_is_human_witness :
    score_result (setHuman cOrg true) = score_result cOrg ∧
    sortDesc [cHum, cOrg] = [cHum, cOrg] :=
  score_ignores_is_human cOrg true cHum cOrg (by decide)

/-- C8, counterexample: ranking is NOT invariant under permutation of
the input — the equal-scoring pair `cOrg`, `cHum` yields a different
head (hence a different `best_result`) when presented in the two
orders. -/
theorem permutation_invariance_claim_false :
    [cOrg, cHum].Perm [cHum, cOrg] ∧
    (sortDesc [cOrg, cHum]).head? ≠ (sortDesc [cHum, cOrg]).head? := by
  refine ⟨List.Perm.swap cHum cOrg [], by decide⟩

/-- C8, amended: the sort is permutation-invariant only in the absence
of score ties — when all candidates in the list have pairwise distinct
scores (score equality implies dict equality), any two input orderings
sort to the same list; with tied scores the stable sort preserves input
order, so permuting tied candidates permutes the output. -/
theorem sortDesc_perm_invariant_distinct (l l2 : List RDict) (hp : l.Perm l2)
    (hd : ∀ x, x ∈ l → ∀ y, y ∈ l → score_result x = score_result y → x = y) :
    sortDesc l = sortDesc l2 := by
  have p1 := sortDesc_perm l
  have p2 := sortDesc_perm l2
  have hperm : (sortDesc l).Perm (sortDesc l2) := p1.trans (hp.trans p2.symm)
  have sub1 : sortDesc l ⊆ l := p1.subset
  have sub2 : sortDesc l2 ⊆ l := fun a ha => hp.symm.subset (p2.subset ha)
  have s1 : (sortDesc l).Pairwise
      (fun a b => score_result b < score_result a ∨ a = b) :=
    List.Pairwise.imp_of_mem
      (fun ha hb hge => by
        rcases Nat.eq_or_lt_of_le hge with heq | hlt
        · exact Or.inr (hd _ (sub1 ha) _ (sub1 hb) heq.symm)
        · exact Or.inl hlt)
      (sortDesc_pairwise l)
  have s2 : (sortDesc l2).Pairwise
      (fun a b => score_result b < score_result a ∨ a = b) :=
    List.Pairwise.imp_of_mem
      (fun ha hb hge => by
        rcases Nat.eq_or_lt_of_le hge with heq | hlt
        · exact Or.inr (hd _ (sub2 ha) _ (sub2 hb) heq.symm)
        · exact Or.inl hlt)
      (sortDesc_pairwise l2)
  haveI : IsAntisymm RDict (fun a b => score_result b < score_result a ∨ a = b) :=
    ⟨by
      intro a b hab hba
      rcases hab with h1 | h1
      · rcases hba with h2 | h2
        · omega
        · exact h2.symm
      · exact h1⟩
  exact List.eq_of_perm_of_sorted hperm s1 s2

/-- C8 witness: two orderings of a two-candidate list with distinct
scores sort identically. -/
theorem sortDesc_perm_invariant_distinct_witness :
    sortDesc [cOrg, rBrand] = sortDesc [rBrand, cOrg] :=
  sortDesc_perm_invariant_distinct [cOrg, rBrand] [rBrand, cOrg]
    (List.Perm.swap rBrand cOrg []) (by decide)

/-- C4, counterexample: a failure of the Tavily provider does NOT leave
the other providers' contributions intact — with Tavily down and the
Wikidata verification succeeding, `find_owner` early-exits with the
empty result, so the Wikidata candidate is discarded; moreover a
missing API key surfaces to the caller as a 500, a caller-visible
failure other than the empty-query 400. -/
theorem tavily_failure_discards_verification :
    envFailT.wikidataVerify = some vDup ∧
    find_owner envFailT "Acme" = emptyResults "Acme" ∧
    (find_owner envFailT "Acme").verification = [] ∧
    (find_owner envFailT "Acme").best_result = none ∧
    search true envFailT "Acme" = SearchResponse.ok (emptyResults "Acme") ∧
    search false envDup "Acme" = SearchResponse.serverError
      "API not configured. Please set TAVILY_API_KEY environment variable."
      500 := by decide

/-- C4, amended: a failing Wikidata or Wikipedia verification provider
contributes an empty slice of the verification list without affecting
the other (the list is exactly the concatenation of the two optional
contributions), and no provider failure raises an exception; but a
failing Tavily provider short-circuits the whole pipeline into the
empty result, and besides the 400 empty-query rejection the route also
exposes a 500 configuration error when the API key is unset. -/
theorem provider_failure_amended (env envF : Env) (q : String)
    (info : OwnerInfo) (hF : envF.tavily = none)
    (hS : env.tavily = some info) :
    find_owner envF q = emptyResults q ∧
    (find_owner env q).verification =
      env.wikidataVerify.toList ++ env.wikipediaVerify.toList ∧
    search false env "Acme" = SearchResponse.serverError
      "API not configured. Please set TAVILY_API_KEY environment variable."
      500 := by
  refine ⟨?_, ?_, ?_⟩
  · unfold find_owner
    rw [hF]
  · unfold find_owner
    rw [hS]
  · unfold search
    rw [if_neg (show ¬pyStrip "Acme" = "" by decide), if_pos rfl]

/-- C4 witness: the amended propagation behaviour at the concrete
environments `envFailT` (Tavily down, Wikidata up) and `envDup` (all
providers up). -/
theorem provider_failure_amended_witness :
    find_owner envFailT "Q" = emptyResults "Q" ∧
    (find_owner envDup "Q").verification =
      envDup.wikidataVerify.toList ++ envDup.wikipediaVerify.toList ∧
    search false envDup "Acme" = SearchResponse.serverError
      "API not configured. Please set TAVILY_API_KEY environment variable."
      500 :=
  provider_failure_amended envDup envFailT "Q" infoJane rfl rfl

/-- C7, counterexample: when Wikidata and Wikipedia return candidates
with the identical labels tuple `["Acme", "HoldCo"]`, no deduplication
happens — `best_result` is the Wikidata copy, yet the Wikipedia copy
with the very same path survives right behind it in the sorted
candidate list (and in the returned `verification` list), so the
remainder offered beyond `best_result` repeats the best path instead of
containing it at most once. -/
theorem dedup_claim_false :
    (find_owner envDup "Acme").best_result = some vDup ∧
    sortDesc (allCandidatesOf envDup "Acme" infoJane) =
      [vDup, wDup, primJane] ∧
    wDup.path = vDup.path ∧ wDup ≠ vDup ∧
    (find_owner envDup "Acme").verification = [vDup, wDup] := by decide

/-- C7, amended: `find_owner` performs no labels-based deduplication
and maintains no alternatives list — the result only carries the full
verification list exactly as the providers produced it (duplicate
chains included) and the head of the stably sorted candidate list as
`best_result`. -/
theorem no_dedup_amended (env : Env) (q : String) (info : OwnerInfo)
    (h : env.tavily = some info) :
    (find_owner env q).best_result =
      (sortDesc (allCandidatesOf env q info)).head? ∧
    (find_owner env q).verification =
      env.wikidataVerify.toList ++ env.wikipediaVerify.toList := by
  unfold find_owner
  rw [h]
  exact ⟨rfl, rfl⟩

/-- C7 witness: the amended no-dedup description at the duplicate-chain
environment `envDup`. -/
theorem no_dedup_amended_witness :
    (find_owner envDup "Acme").best_result =
      (sortDesc (allCandidatesOf envDup "Acme" infoJane)).head? ∧
    (find_owner envDup "Acme").verification =
      envDup.wikidataVerify.toList ++ envDup.wikipediaVerify.toList :=
  no_dedup_amended envDup "Acme" infoJane rfl

/-- C9: a query that is empty or blank after stripping is rejected by
the route with the 400 "Empty query" client error, and the response is
the same whatever the providers would have answered — no lookup is
consulted for such input. -/
theorem search_blank_rejected (apiKeySet : Bool) (env env2 : Env)
    (raw : String) (h : pyStrip raw = "") :
    search apiKeySet env raw = SearchResponse.clientError "Empty query" 400 ∧
    search apiKeySet env raw = search apiKeySet env2 raw := by
  unfold search
  rw [h]
  simp

/-- C9 witness: the all-blank query `"   "` is rejected with the 400
error under any environment. -/
theorem search_blank_rejected_witness :
    search true envDefault "   " =
      SearchResponse.clientError "Empty query" 400 ∧
    search true envDefault "   " = search true envDup "   " :=
  search_blank_rejected true envDefault envDup "   " (by decide)

/-- C10: every `primary_result` that `find_owner` builds from the
Tavily extraction has `is_human = false` — the field is hardwired —
whatever owner the extractor produced, so a Tavily-only owner is never
scored as a human terminal. -/
theorem primary_result_never_human (env : Env) (q : String)
    (info : OwnerInfo) (r : RDict) (ht : env.tavily = some info)
    (hp : (find_owner env q).primary_result = some r) :
    r.is_human = false := by
  unfold find_owner at hp
  rw [ht] at hp
  have h2 : primaryOf q info = some r := hp
  unfold primaryOf at h2
  split_ifs at h2
  · injection h2 with h5
    rw [← h5]
  · injection h2 with h5
    rw [← h5]

/-- C10 witness: the primary result built for the extracted person
"Jane Doe" still carries `is_human = false`. -/
theorem primary_result_never_human_witness : primJane.is_human = false :=
  primary_result_never_human envDup "Acme" infoJane primJane rfl (by decide)
